import Mathlib

/-!
Verification of the go-raytracer path tracer against its specification.

The embedding follows the final iteration of the repository
(src/unnamed/part_000 for the driver and integrator, src/unnamed/part_001 for
shapes and materials, src/math.go for vector algebra).  float32 arithmetic is
idealised as real arithmetic; the Go interfaces Shape and Material range over
closed sets of implementations and are modelled as sum types; the mutable
*rand.Rand generator is modelled as an oracle state threaded explicitly.
-/

set_option linter.unusedVariables false

namespace GoRaytracer

/-- Vec3 represents a 3D vector (math.go); float32 components idealised as reals. -/
structure Vec3 where
  X : ℝ
  Y : ℝ
  Z : ℝ

/-- Dot product between two vectors (math.go). -/
def Dot (a b : Vec3) : ℝ := a.X * b.X + a.Y * b.Y + a.Z * b.Z

/-- Cross product between two vectors (math.go). -/
def Cross (a b : Vec3) : Vec3 :=
  ⟨a.Y * b.Z - a.Z * b.Y, a.Z * b.X - a.X * b.Z, a.X * b.Y - a.Y * b.X⟩

/-- Sqrt computes the sqrt of a float32 via math.Sqrt (math.go); modelled by Real.sqrt. -/
noncomputable def Sqrt (x : ℝ) : ℝ := Real.sqrt x

/-- SquaredLength of the vector (math.go). -/
def Vec3.SquaredLength (v : Vec3) : ℝ := Dot v v

/-- Length of the vector (math.go). -/
noncomputable def Vec3.Length (v : Vec3) : ℝ := Sqrt v.SquaredLength

/-- Sub computes a - b (math.go). -/
def Sub (a b : Vec3) : Vec3 := ⟨a.X - b.X, a.Y - b.Y, a.Z - b.Z⟩

/-- Add computes a + b (math.go). -/
def Add (a b : Vec3) : Vec3 := ⟨a.X + b.X, a.Y + b.Y, a.Z + b.Z⟩

/-- MulScalar computes s * a (math.go). -/
def MulScalar (s : ℝ) (a : Vec3) : Vec3 := ⟨a.X * s, a.Y * s, a.Z * s⟩

/-- DivScalar computes a / s (math.go). -/
noncomputable def DivScalar (s : ℝ) (a : Vec3) : Vec3 := ⟨a.X / s, a.Y / s, a.Z / s⟩

/-- Mul computes the elementwise product (math.go). -/
def Mul (a b : Vec3) : Vec3 := ⟨a.X * b.X, a.Y * b.Y, a.Z * b.Z⟩

/-- Normalize a vector (math.go): DivScalar(a.Length(), a). -/
noncomputable def Normalize (a : Vec3) : Vec3 := DivScalar a.Length a

/-- Ray from origin in a direction (part_000). -/
structure Ray where
  Origin : Vec3
  Direction : Vec3

/-- At computes the point on the ray at t (part_000). -/
def Ray.At (ray : Ray) (t : ℝ) : Vec3 := Add ray.Origin (MulScalar t ray.Direction)

/-- Lambertian material (part_001). -/
structure Lambertian where
  Albedo : Vec3

/-- Metal material (part_001). -/
structure Metal where
  Albedo : Vec3
  fuzz : ℝ

/-- Dielectric material (part_001). -/
structure Dielectric where
  ReflectionIndex : ℝ

/-- The Material interface (part_001) ranges over the closed set of the three
implementations in the repository; modelled as a sum type. -/
inductive Material where
  | lambertian (m : Lambertian)
  | metal (m : Metal)
  | dielectric (m : Dielectric)

/-- Hit represents data about a ray hitting an object (part_000). -/
structure Hit where
  T : ℝ
  Position : Vec3
  Normal : Vec3
  Material : Material

/-- NewHit creates a Hit object (part_000): position is ray.At(t). -/
def NewHit (t : ℝ) (ray : Ray) (normal : Vec3) (material : Material) : Hit :=
  ⟨t, ray.At t, normal, material⟩

/-- The *rand.Rand generator threaded through the tracer, modelled as an
oracle: unitBall streams the successive results of RandomPointInUnitSphere
(math.go; its rejection-sampling loop is abstracted by the points it returns)
and unif streams the successive results of rng.Float32(); k counts the draws
made so far. -/
structure RNG where
  unitBall : ℕ → Vec3
  unif : ℕ → ℝ
  k : ℕ

/-- Draw the next RandomPointInUnitSphere result from the oracle. -/
def RNG.nextBall (r : RNG) : Vec3 × RNG := (r.unitBall r.k, ⟨r.unitBall, r.unif, r.k + 1⟩)

/-- Draw the next rng.Float32() result from the oracle. -/
def RNG.nextFloat (r : RNG) : ℝ × RNG := (r.unif r.k, ⟨r.unitBall, r.unif, r.k + 1⟩)

/-- reflect (part_001): incoming - 2*Dot(normal, incoming)*normal. -/
def reflect (incoming normal : Vec3) : Vec3 :=
  Sub incoming (MulScalar (2 * Dot normal incoming) normal)

/-- refract (part_001). -/
noncomputable def refract (incoming normal : Vec3) (niOverNt : ℝ) : Bool × Vec3 :=
  let dt := Dot incoming normal
  let discriminant := 1 - niOverNt * niOverNt * (1 - dt * dt)
  if 0 < discriminant then
    (true, Normalize (Sub (MulScalar niOverNt (Sub incoming (MulScalar dt normal)))
      (MulScalar (Sqrt discriminant) normal)))
  else
    (false, ⟨0, 0, 0⟩)

/-- schlick (part_001): r0 + (1-r0)*base^5 with r0 = ((1-ri)/(1+ri))^2. -/
noncomputable def schlick (cosine reflectionIndex : ℝ) : ℝ :=
  let r0 := (1 - reflectionIndex) / (1 + reflectionIndex)
  let r0 := r0 * r0
  let base := 1 - cosine
  r0 + (1 - r0) * base * base * base * base * base

/-- Lambertian.Scatter (part_001). -/
noncomputable def Lambertian.Scatter (mat : Lambertian) (ray : Ray) (hit : Hit) (rng : RNG) :
    (Bool × Vec3 × Ray) × RNG :=
  let pr := rng.nextBall
  let direction := Normalize (Add pr.1 hit.Normal)
  ((true, mat.Albedo, ⟨hit.Position, direction⟩), pr.2)

/-- Metal.Scatter (part_001): reflect, perturb by fuzz times a unit-ball point,
normalize, scatter iff the direction points away from the surface. -/
noncomputable def Metal.Scatter (mat : Metal) (ray : Ray) (hit : Hit) (rng : RNG) :
    (Bool × Vec3 × Ray) × RNG :=
  let pr := rng.nextBall
  let direction := reflect ray.Direction hit.Normal
  let direction2 := Normalize (Add direction (MulScalar mat.fuzz pr.1))
  ((decide (0 < Dot direction2 hit.Normal), mat.Albedo, ⟨hit.Position, direction2⟩), pr.2)

/-- Dielectric.Scatter (part_001).  The short-circuit of the Go condition
didRefract && schlick(...) < rng.Float32() means the uniform draw happens only
when the refraction attempt succeeded. -/
noncomputable def Dielectric.Scatter (mat : Dielectric) (ray : Ray) (hit : Hit) (rng : RNG) :
    (Bool × Vec3 × Ray) × RNG :=
  let d := Dot ray.Direction hit.Normal
  let outwardNormal := if 0 < d then MulScalar (-1) hit.Normal else hit.Normal
  let niOverNt := if 0 < d then mat.ReflectionIndex else 1 / mat.ReflectionIndex
  let cosine := if 0 < d then mat.ReflectionIndex * d else -d
  let rr := refract ray.Direction outwardNormal niOverNt
  if rr.1 then
    let ur := rng.nextFloat
    if schlick cosine mat.ReflectionIndex < ur.1 then
      ((true, ⟨1, 1, 1⟩, ⟨hit.Position, rr.2⟩), ur.2)
    else
      ((true, ⟨1, 1, 1⟩, ⟨hit.Position, reflect ray.Direction hit.Normal⟩), ur.2)
  else
    ((true, ⟨1, 1, 1⟩, ⟨hit.Position, reflect ray.Direction hit.Normal⟩), rng)

/-- Material.Scatter: dispatch of the Material interface (part_001). -/
noncomputable def Material.Scatter (m : Material) (ray : Ray) (hit : Hit) (rng : RNG) :
    (Bool × Vec3 × Ray) × RNG :=
  match m with
  | .lambertian l => l.Scatter ray hit rng
  | .metal mm => mm.Scatter ray hit rng
  | .dielectric d => d.Scatter ray hit rng

/-- Sphere in 3D space (part_001). -/
structure Sphere where
  Position : Vec3
  Radius : ℝ
  Material : Material

/-- Sphere.Intersect (part_001 lines 110-131). -/
noncomputable def Sphere.Intersect (sphere : Sphere) (ray : Ray) : Option Hit :=
  let a := Dot ray.Direction ray.Direction
  let relPos := Sub ray.Origin sphere.Position
  let b := 2 * Dot ray.Direction relPos
  let c := Dot relPos relPos - sphere.Radius * sphere.Radius
  let discriminant := b * b - 4 * a * c
  if discriminant < 0 then none
  else
    let t0 := (-b - Sqrt discriminant) / (2 * a)
    let t := if t0 < 0 then (-b + Sqrt discriminant) / (2 * a) else t0
    if t ≤ 1e-3 then none
    else
      some (NewHit t ray
        (Normalize (DivScalar sphere.Radius (Sub (ray.At t) sphere.Position))) sphere.Material)

/-- Plane in 3D space (part_001). -/
structure Plane where
  Normal : Vec3
  Along : ℝ
  Material : Material

/-- Plane.Intersect (part_001 lines 141-152).  Note the epsilon test is the
strict t < 1e-3. -/
noncomputable def Plane.Intersect (plane : Plane) (ray : Ray) : Option Hit :=
  let denom := Dot plane.Normal ray.Direction
  if |denom| < 1e-6 then none
  else
    let planePoint := MulScalar plane.Along plane.Normal
    let t := (Dot planePoint plane.Normal - Dot plane.Normal ray.Origin) / denom
    if t < 1e-3 then none
    else some (NewHit t ray plane.Normal plane.Material)

/-- The Shape interface (part_001) over the closed set of implementations. -/
inductive Shape where
  | sphere (s : Sphere)
  | plane (p : Plane)

/-- Shape.Intersect: dispatch of the Shape interface. -/
noncomputable def Shape.Intersect (sh : Shape) (ray : Ray) : Option Hit :=
  match sh with
  | .sphere s => s.Intersect ray
  | .plane p => p.Intersect ray

/-- imageWidth (part_000). -/
def imageWidth : ℕ := 1280

/-- imageHeight (part_000). -/
def imageHeight : ℕ := 720

/-- maxBounces (part_000). -/
def maxBounces : ℕ := 50

/-- float32(math.MaxFloat32) = (2^24 - 1) * 2^104, the initial value of the
closest variable in the nearest-hit loop of castRay (part_000 line 107). -/
def maxFloat32 : ℝ := 16777215 * 2 ^ 104

/-- One step of the nearest-hit loop body (part_000 lines 111-114): replace the
running (closest, closestHit) state when the new hit is strictly nearer. -/
noncomputable def hitStep : ℝ × Option Hit → Hit → ℝ × Option Hit
  | (closest, closestHit), h =>
    if h.T < closest then (h.T, some h) else (closest, closestHit)

/-- The nearest-hit loop of castRay (part_000 lines 107-115): the two mutable
variables are threaded as a pair through a left fold over the shape list. -/
noncomputable def closestHitLoop (world : List Shape) (ray : Ray) : ℝ × Option Hit :=
  world.foldl
    (fun p s => match s.Intersect ray with | some hit => hitStep p hit | none => p)
    (maxFloat32, none)

/-- The sky gradient castRay returns on a miss (part_000 line 125), a vertical
gradient in the ray direction's Y component. -/
noncomputable def backgroundColor (ray : Ray) : Vec3 :=
  Add (MulScalar ((ray.Direction.Y + 1) / 2) ⟨0.6, 0.6, 1⟩)
    (MulScalar (1 - (ray.Direction.Y + 1) / 2) ⟨1, 1, 1⟩)

/-- castRay (part_000 lines 103-126).  The global world slice is passed as a
parameter and the rng pointer is threaded explicitly; everything else follows
the source line by line. -/
noncomputable def castRay (world : List Shape) (ray : Ray) (rng : RNG) (bounced : ℕ) : Vec3 :=
  if h : maxBounces < bounced then ⟨0, 0, 0⟩
  else
    match (closestHitLoop world ray).2 with
    | some closestHit =>
      let s := closestHit.Material.Scatter ray closestHit rng
      if s.1.1 then Mul s.1.2.1 (castRay world s.1.2.2 s.2 (bounced + 1)) else ⟨0, 0, 0⟩
    | none => backgroundColor ray
termination_by maxBounces + 1 - bounced
decreasing_by simp only [maxBounces] at *; omega

/-- The accepted intersections of the scene for a ray: the hits of the shapes
whose Intersect returns one, in scan order. -/
noncomputable def acceptedHits (world : List Shape) (ray : Ray) : List Hit :=
  world.filterMap (fun s => s.Intersect ray)

/-- Sphere intersection exactly as the spec sentence words it (spec section
4.3): same quadratic and root policy as the source, with the outward normal
written normalize(hitPoint - center).  Used to compare the source definition
against the spec's description. -/
noncomputable def sphereIntersectSpec (sphere : Sphere) (ray : Ray) : Option Hit :=
  let a := Dot ray.Direction ray.Direction
  let relPos := Sub ray.Origin sphere.Position
  let b := 2 * Dot ray.Direction relPos
  let c := Dot relPos relPos - sphere.Radius * sphere.Radius
  let discriminant := b * b - 4 * a * c
  if discriminant < 0 then none
  else
    let t0 := (-b - Sqrt discriminant) / (2 * a)
    let t := if t0 < 0 then (-b + Sqrt discriminant) / (2 * a) else t0
    if t ≤ 1e-3 then none
    else some (NewHit t ray (Normalize (Sub (ray.At t) sphere.Position)) sphere.Material)

/-- A tile rectangle, in the argument order of processTile (part_000):
fromX, fromY, toX, toY.  processTile writes exactly the pixels of
[fromX, toX) x [fromY, toY). -/
structure Tile where
  fromX : ℕ
  fromY : ℕ
  toX : ℕ
  toY : ℕ

/-- The four tile rectangles handed to processTile in main (part_000 lines
173-176). -/
def tileRects : List Tile :=
  [⟨0, 0, imageWidth / 2, imageHeight / 2⟩,
   ⟨imageWidth / 2, 0, imageWidth, imageHeight / 2⟩,
   ⟨0, imageHeight / 2, imageWidth / 2, imageHeight⟩,
   ⟨imageWidth / 2, imageHeight / 2, imageWidth, imageHeight⟩]

/-- Membership of a pixel coordinate in a tile's half-open rectangle. -/
def inTile (t : Tile) (x y : ℕ) : Prop :=
  t.fromX ≤ x ∧ x < t.toX ∧ t.fromY ≤ y ∧ y < t.toY

/-- The seed processTile hands to rand.NewSource (part_000 line 141): the
constant 0, independent of which tile the worker owns. -/
def processTileSeed : ℤ := 0

/-- One seed per worker spawned in main (part_000 lines 173-176); each of the
four processTile calls executes rand.New(rand.NewSource(0)). -/
def workerSeeds : List ℤ :=
  [processTileSeed, processTileSeed, processTileSeed, processTileSeed]

/-- The Go conversion uint8(x) of a float32: the fraction is discarded
(truncation toward zero); a value outside uint8 range is implementation
specific in Go and is modelled as on the reference platform, reduction of the
truncated integer modulo 2^8. -/
noncomputable def go_uint8 (x : ℝ) : ℤ := (if 0 ≤ x then ⌊x⌋ else ⌈x⌉) % 256

/-- Vec3.RGBA (math.go lines 24-27): color.RGBA{uint8(v.X*255), uint8(v.Y*255),
uint8(v.Z*255), 255}.  No clamping happens anywhere in it. -/
noncomputable def Vec3.RGBA (v : Vec3) : ℤ × ℤ × ℤ × ℤ :=
  (go_uint8 (v.X * 255), go_uint8 (v.Y * 255), go_uint8 (v.Z * 255), 255)

/-- A concrete material for concrete scenes in closed statements. -/
def mWhite : Material := Material.lambertian ⟨⟨1, 1, 1⟩⟩

/-- A concrete rng oracle for closed statements. -/
def rng0 : RNG := ⟨fun _ => ⟨0, 0, 0⟩, fun _ => 0, 0⟩

lemma dot_self_nonneg (v : Vec3) : 0 ≤ Dot v v := by
  simp only [Dot]
  linarith [mul_self_nonneg v.X, mul_self_nonneg v.Y, mul_self_nonneg v.Z]

lemma length_nonneg (v : Vec3) : 0 ≤ v.Length := by
  simp only [Vec3.Length, Sqrt]; exact Real.sqrt_nonneg _

lemma dot_divScalar_left (s : ℝ) (v n : Vec3) : Dot (DivScalar s v) n = Dot v n / s := by
  simp only [Dot, DivScalar]; ring

lemma length_divScalar (r : ℝ) (hr : 0 < r) (v : Vec3) :
    (DivScalar r v).Length = v.Length / r := by
  simp only [Vec3.Length, Vec3.SquaredLength, Sqrt, Dot, DivScalar]
  rw [show v.X / r * (v.X / r) + v.Y / r * (v.Y / r) + v.Z / r * (v.Z / r)
      = (v.X * v.X + v.Y * v.Y + v.Z * v.Z) * (r⁻¹) ^ 2 by ring]
  rw [Real.sqrt_mul
    (by linarith [mul_self_nonneg v.X, mul_self_nonneg v.Y, mul_self_nonneg v.Z]),
    Real.sqrt_sq (by positivity : (0:ℝ) ≤ r⁻¹), div_eq_mul_inv]

lemma normalize_divScalar (r : ℝ) (hr : 0 < r) (v : Vec3) :
    Normalize (DivScalar r v) = Normalize v := by
  have hr' : r ≠ 0 := ne_of_gt hr
  simp only [Normalize]
  rw [length_divScalar r hr]
  simp only [DivScalar]
  rw [Vec3.mk.injEq]
  refine ⟨?_, ?_, ?_⟩ <;>
  · by_cases hL : v.Length = 0
    · simp [hL]
    · field_simp

lemma dot_normalize_pos_iff (v n : Vec3) : 0 < Dot (Normalize v) n ↔ 0 < Dot v n := by
  simp only [Normalize]
  rw [dot_divScalar_left]
  by_cases hL : v.Length = 0
  · have hdot : Dot v v = 0 := by
      have h0 := dot_self_nonneg v
      have h1 : Real.sqrt (Dot v v) = 0 := by
        simpa [Vec3.Length, Sqrt, Vec3.SquaredLength] using hL
      have h2 : Dot v v ≤ 0 := Real.sqrt_eq_zero'.mp h1
      linarith
    have hX : v.X = 0 := by
      simp only [Dot] at hdot; nlinarith [sq_nonneg v.X, sq_nonneg v.Y, sq_nonneg v.Z]
    have hY : v.Y = 0 := by
      simp only [Dot] at hdot; nlinarith [sq_nonneg v.X, sq_nonneg v.Y, sq_nonneg v.Z]
    have hZ : v.Z = 0 := by
      simp only [Dot] at hdot; nlinarith [sq_nonneg v.X, sq_nonneg v.Y, sq_nonneg v.Z]
    have hvn : Dot v n = 0 := by simp [Dot, hX, hY, hZ]
    rw [hvn, hL]
    simp
  · have hLpos : 0 < v.Length := lt_of_le_of_ne (length_nonneg v) (Ne.symm hL)
    rw [div_pos_iff]
    constructor
    · rintro (⟨h, _⟩ | ⟨_, hb⟩)
      · exact h
      · linarith
    · intro h
      exact Or.inl ⟨h, hLpos⟩

lemma hitFold_spec (hits : List Hit) : ∀ (c : ℝ) (acc : Option Hit),
    (List.foldl hitStep (c, acc) hits = (c, acc) ∧ ∀ h ∈ hits, c ≤ h.T) ∨
    (∃ h, h ∈ hits ∧ List.foldl hitStep (c, acc) hits = (h.T, some h) ∧ h.T < c ∧
      ∀ h' ∈ hits, h.T ≤ h'.T) := by
  induction hits with
  | nil =>
    intro c acc
    left
    exact ⟨rfl, by simp⟩
  | cons hd tl ih =>
    intro c acc
    rw [List.foldl_cons]
    by_cases hc : hd.T < c
    · rw [show hitStep (c, acc) hd = (hd.T, some hd) by simp only [hitStep]; rw [if_pos hc]]
      rcases ih hd.T (some hd) with ⟨heq, hall⟩ | ⟨h', hmem, heq, hlt, hmin⟩
      · right
        refine ⟨hd, List.mem_cons_self hd tl, heq, hc, ?_⟩
        intro h' hh'
        rcases List.mem_cons.mp hh' with rfl | hh'
        · exact le_rfl
        · exact hall h' hh'
      · right
        refine ⟨h', List.mem_cons_of_mem _ hmem, heq, lt_trans hlt hc, ?_⟩
        intro h'' hh''
        rcases List.mem_cons.mp hh'' with rfl | hh''
        · exact le_of_lt hlt
        · exact hmin h'' hh''
    · rw [show hitStep (c, acc) hd = (c, acc) by simp only [hitStep]; rw [if_neg hc]]
      rcases ih c acc with ⟨heq, hall⟩ | ⟨h', hmem, heq, hlt, hmin⟩
      · left
        refine ⟨heq, ?_⟩
        intro h' hh'
        rcases List.mem_cons.mp hh' with rfl | hh'
        · exact not_lt.mp hc
        · exact hall h' hh'
      · right
        refine ⟨h', List.mem_cons_of_mem _ hmem, heq, hlt, ?_⟩
        intro h'' hh''
        rcases List.mem_cons.mp hh'' with rfl | hh''
        · exact le_of_lt (lt_of_lt_of_le hlt (not_lt.mp hc))
        · exact hmin h'' hh''

lemma foldl_filterMap_loop (ray : Ray) (l : List Shape) : ∀ init : ℝ × Option Hit,
    l.foldl (fun p s => match s.Intersect ray with | some hit => hitStep p hit | none => p) init
      = (l.filterMap (fun s => s.Intersect ray)).foldl hitStep init := by
  induction l with
  | nil => intro init; rfl
  | cons s l ih =>
    intro init
    rw [List.foldl_cons, List.filterMap_cons]
    cases hs : s.Intersect ray with
    | none => simp only [hs]; exact ih init
    | some hit => simp only [hs]; rw [List.foldl_cons]; exact ih _

lemma closestHitLoop_eq (world : List Shape) (ray : Ray) :
    closestHitLoop world ray = List.foldl hitStep (maxFloat32, none) (acceptedHits world ray) := by
  simp only [closestHitLoop, acceptedHits]
  exact foldl_filterMap_loop ray world _

lemma castRay_of_no_hit (world : List Shape) (ray : Ray) (rng : RNG) (bounced : ℕ)
    (hb : bounced ≤ maxBounces) (hn : (closestHitLoop world ray).2 = none) :
    castRay world ray rng bounced = backgroundColor ray := by
  rw [castRay]
  rw [dif_neg (not_lt.mpr hb), hn]

lemma closestHit_none_iff (world : List Shape) (ray : Ray) :
    (closestHitLoop world ray).2 = none ↔ ∀ h ∈ acceptedHits world ray, maxFloat32 ≤ h.T := by
  rw [closestHitLoop_eq]
  rcases hitFold_spec (acceptedHits world ray) maxFloat32 none with
    ⟨heq, hall⟩ | ⟨h, hmem, heq, hlt, _⟩
  · rw [heq]
    exact ⟨fun _ => hall, fun _ => rfl⟩
  · rw [heq]
    constructor
    · intro hnone
      exact absurd hnone (by simp)
    · intro hall'
      exact absurd (hall' h hmem) (not_le.mpr hlt)

lemma closestHit_some_min (world : List Shape) (ray : Ray) (h : Hit)
    (hs : (closestHitLoop world ray).2 = some h) :
    h ∈ acceptedHits world ray ∧ h.T < maxFloat32 ∧
      ∀ h' ∈ acceptedHits world ray, h.T ≤ h'.T := by
  rw [closestHitLoop_eq] at hs
  rcases hitFold_spec (acceptedHits world ray) maxFloat32 none with
    ⟨heq, _⟩ | ⟨h', hmem, heq, hlt, hmin⟩
  · rw [heq] at hs
    exact absurd hs (by simp)
  · rw [heq] at hs
    obtain rfl : h' = h := by simpa using hs
    exact ⟨hmem, hlt, hmin⟩

/-- C1 (counterexample): castRay invoked with bounceDepth exactly equal to
maxBounces = 50 does not return zero radiance: on the empty scene and a ray
pointing straight up it still traces and returns the sky gradient (0.6, 0.6, 1). -/
theorem castRay_at_max_bounces_not_zero :
    castRay [] ⟨⟨0, 0, 0⟩, ⟨0, 1, 0⟩⟩ rng0 maxBounces ≠ (⟨0, 0, 0⟩ : Vec3) := by
  have h := castRay_of_no_hit [] ⟨⟨0, 0, 0⟩, ⟨0, 1, 0⟩⟩ rng0 maxBounces le_rfl rfl
  rw [h]
  intro hEq
  simp only [backgroundColor, Add, MulScalar] at hEq
  rw [Vec3.mk.injEq] at hEq
  norm_num at hEq

/-- C1 (amended): the base case of castRay fires once bounceDepth strictly
exceeds the maximum maxBounces = 50: for every scene, ray and rng state,
castRay with bounced > maxBounces returns exactly zero radiance. -/
theorem castRay_zero_after_budget (world : List Shape) (ray : Ray) (rng : RNG)
    (bounced : ℕ) (hb : maxBounces < bounced) :
    castRay world ray rng bounced = (⟨0, 0, 0⟩ : Vec3) := by
  rw [castRay]
  rw [dif_pos hb]

/-- C1 witness: the amended theorem at the concrete depth 51. -/
theorem castRay_zero_after_budget_witness :
    castRay [] ⟨⟨0, 0, 0⟩, ⟨0, 1, 0⟩⟩ rng0 51 = (⟨0, 0, 0⟩ : Vec3) :=
  castRay_zero_after_budget [] ⟨⟨0, 0, 0⟩, ⟨0, 1, 0⟩⟩ rng0 51 (by decide)

/-- C2 (amended): the scene query of castRay scans the shape list linearly and
keeps the accepted hit with the globally smallest parameter t among those whose
t lies below the loop's initial sentinel float32(math.MaxFloat32); an accepted
hit at or above the sentinel is dropped, and when no accepted hit lies below
the sentinel (in particular when no shape accepts the ray) a ray within the
bounce budget resolves to the background gradient. -/
theorem castRay_nearest_hit_query (world : List Shape) (ray : Ray) :
    ((closestHitLoop world ray).2 = none ↔ ∀ h ∈ acceptedHits world ray, maxFloat32 ≤ h.T) ∧
    (∀ h, (closestHitLoop world ray).2 = some h →
      h ∈ acceptedHits world ray ∧ h.T < maxFloat32 ∧
        ∀ h' ∈ acceptedHits world ray, h.T ≤ h'.T) ∧
    (∀ (rng : RNG) (bounced : ℕ), bounced ≤ maxBounces →
      (closestHitLoop world ray).2 = none →
      castRay world ray rng bounced = backgroundColor ray) :=
  ⟨closestHit_none_iff world ray,
   fun h hs => closestHit_some_min world ray h hs,
   fun rng bounced hb hn => castRay_of_no_hit world ray rng bounced hb hn⟩

/-- C2 witness: the miss branch of the amended theorem at a concrete empty
scene and primary ray. -/
theorem castRay_nearest_hit_query_witness :
    castRay [] ⟨⟨0, 0, 0⟩, ⟨1, 0, 0⟩⟩ rng0 0 = backgroundColor ⟨⟨0, 0, 0⟩, ⟨1, 0, 0⟩⟩ :=
  (castRay_nearest_hit_query [] ⟨⟨0, 0, 0⟩, ⟨1, 0, 0⟩⟩).2.2 rng0 0 (Nat.zero_le _) rfl

/-- C6: the Schlick reflectance of the source lies within [0, 1] for every
cosine in [0, 1] and every refractiveIndex > 0. -/
theorem schlick_within_unit_interval (cosine reflectionIndex : ℝ)
    (hc0 : 0 ≤ cosine) (hc1 : cosine ≤ 1) (hri : 0 < reflectionIndex) :
    0 ≤ schlick cosine reflectionIndex ∧ schlick cosine reflectionIndex ≤ 1 := by
  simp only [schlick]
  set q := (1 - reflectionIndex) / (1 + reflectionIndex) with hq
  have hden : (0:ℝ) < 1 + reflectionIndex := by linarith
  have hr0 : 0 ≤ q * q := mul_self_nonneg q
  have hr1 : q * q ≤ 1 := by
    rw [hq, div_mul_div_comm, div_le_one (by positivity)]
    nlinarith
  set b := 1 - cosine with hb
  have hb0 : 0 ≤ b := by linarith
  have hb1 : b ≤ 1 := by linarith
  have h2 : b * b ≤ 1 := by nlinarith
  have h3 : b * b * b ≤ 1 := by nlinarith
  have h4 : b * b * b * b ≤ 1 := by nlinarith
  have h5 : b * b * b * b * b ≤ 1 := by nlinarith
  have h5' : 0 ≤ b * b * b * b * b := by positivity
  constructor
  · nlinarith [mul_nonneg (by linarith : (0:ℝ) ≤ 1 - q * q) h5']
  · nlinarith [mul_nonneg (by linarith : (0:ℝ) ≤ 1 - q * q) (by linarith : (0:ℝ) ≤ 1 - b * b * b * b * b)]

/-- C6 witness: the bounds at cosine = 1/2, refractiveIndex = 3/2. -/
theorem schlick_within_unit_interval_witness :
    0 ≤ schlick (1/2) (3/2) ∧ schlick (1/2) (3/2) ≤ 1 :=
  schlick_within_unit_interval (1/2) (3/2) (by norm_num) (by norm_num) (by norm_num)

/-- C8: the four workers spawned in main do not use distinct seeds: every one
of them initialises its generator from rand.NewSource(0), so all four seeds
are the constant 0 and the seed list is not pairwise distinct. -/
theorem worker_seeds_all_zero :
    workerSeeds = [0, 0, 0, 0] ∧ ¬ List.Pairwise (fun a b => a ≠ b) workerSeeds :=
  ⟨rfl, by decide⟩

/-- C9: Vec3.RGBA does not clamp: a channel of 2 (above 1) quantises to byte
254, not 255, and a channel of -1/2 (below 0) quantises to byte 129, not 0,
because the scaled value is truncated and wrapped modulo 256 instead of being
clamped to [0, 1] first. -/
theorem rgba_wraps_instead_of_clamping :
    Vec3.RGBA ⟨2, 0, 0⟩ = (254, 0, 0, 255) ∧ Vec3.RGBA ⟨-1/2, 0, 0⟩ = (129, 0, 0, 255) := by
  constructor
  · simp only [Vec3.RGBA, go_uint8]
    norm_num
  · simp only [Vec3.RGBA, go_uint8]
    norm_num
    rw [show ⌈(-(255 / 2) : ℝ)⌉ = -127 by
      rw [Int.ceil_eq_iff] <;> norm_num]
    norm_num

/-- C7: the four tile rectangles handed to the workers partition the
imageWidth x imageHeight pixel grid exactly: every in-range pixel lies in
exactly one tile. -/
theorem tiles_partition_image (x y : ℕ) (hx : x < imageWidth) (hy : y < imageHeight) :
    ∃! t : Tile, t ∈ tileRects ∧ inTile t x y := by
  simp only [imageWidth, imageHeight] at hx hy
  by_cases h1 : x < 640 <;> by_cases h2 : y < 360
  · refine ⟨⟨0, 0, 640, 360⟩,
      ⟨by simp [tileRects, imageWidth, imageHeight], by simp only [inTile]; omega⟩, ?_⟩
    rintro t ⟨hmem, hin⟩
    simp [tileRects, imageWidth, imageHeight] at hmem
    rcases hmem with rfl | rfl | rfl | rfl <;>
      first
        | rfl
        | (exfalso; simp only [inTile] at hin; omega)
  · refine ⟨⟨0, 360, 640, 720⟩,
      ⟨by simp [tileRects, imageWidth, imageHeight], by simp only [inTile]; omega⟩, ?_⟩
    rintro t ⟨hmem, hin⟩
    simp [tileRects, imageWidth, imageHeight] at hmem
    rcases hmem with rfl | rfl | rfl | rfl <;>
      first
        | rfl
        | (exfalso; simp only [inTile] at hin; omega)
  · refine ⟨⟨640, 0, 1280, 360⟩,
      ⟨by simp [tileRects, imageWidth, imageHeight], by simp only [inTile]; omega⟩, ?_⟩
    rintro t ⟨hmem, hin⟩
    simp [tileRects, imageWidth, imageHeight] at hmem
    rcases hmem with rfl | rfl | rfl | rfl <;>
      first
        | rfl
        | (exfalso; simp only [inTile] at hin; omega)
  · refine ⟨⟨640, 360, 1280, 720⟩,
      ⟨by simp [tileRects, imageWidth, imageHeight], by simp only [inTile]; omega⟩, ?_⟩
    rintro t ⟨hmem, hin⟩
    simp [tileRects, imageWidth, imageHeight] at hmem
    rcases hmem with rfl | rfl | rfl | rfl <;>
      first
        | rfl
        | (exfalso; simp only [inTile] at hin; omega)

/-- C7 witness: the partition property at the concrete pixel (0, 0). -/
theorem tiles_partition_image_witness :
    ∃! t : Tile, t ∈ tileRects ∧ inTile t 0 0 :=
  tiles_partition_image 0 0 (by decide) (by decide)

/-- C5: Metal.Scatter always returns the metal's albedo as attenuation, and
scatters (didScatter = true) exactly when the fuzz-perturbed specular
reflection has positive dot product with the surface normal. -/
theorem metal_scatter_contract (mat : Metal) (ray : Ray) (hit : Hit) (rng : RNG) :
    (Metal.Scatter mat ray hit rng).1.2.1 = mat.Albedo ∧
    ((Metal.Scatter mat ray hit rng).1.1 = true ↔
      0 < Dot (Add (reflect ray.Direction hit.Normal)
        (MulScalar mat.fuzz (rng.unitBall rng.k))) hit.Normal) := by
  constructor
  · simp [Metal.Scatter, RNG.nextBall]
  · simp only [Metal.Scatter, RNG.nextBall, decide_eq_true_eq]
    exact dot_normalize_pos_iff _ _

/-- C3 (counterexample): Plane.Intersect accepts a hit whose parameter equals
the epsilon exactly: a plane at offset 1e-3 hit head-on yields t = 1e-3, which
the strict test t < 1e-3 does not reject, so the returned Hit has T = 1e-3,
not strictly greater than 1e-3. -/
theorem plane_intersect_at_epsilon :
    Plane.Intersect ⟨⟨0, 1, 0⟩, 1e-3, mWhite⟩ ⟨⟨0, 0, 0⟩, ⟨0, 1, 0⟩⟩
        = some (NewHit 1e-3 ⟨⟨0, 0, 0⟩, ⟨0, 1, 0⟩⟩ ⟨0, 1, 0⟩ mWhite) ∧
    ¬ (1e-3 : ℝ) < (NewHit 1e-3 ⟨⟨0, 0, 0⟩, ⟨0, 1, 0⟩⟩ ⟨0, 1, 0⟩ mWhite).T := by
  constructor
  · simp only [Plane.Intersect, Dot, MulScalar, NewHit, Ray.At, Add]
    norm_num
  · simp only [NewHit]
    norm_num

/-- C3 (amended): Sphere.Intersect rejects t ≤ 1e-3, so every sphere hit has
T strictly above the epsilon; Plane.Intersect rejects only t < 1e-3, so every
plane hit has T at least the epsilon (equality is possible). -/
theorem intersect_epsilon_policy :
    (∀ (s : Sphere) (ray : Ray) (h : Hit), Sphere.Intersect s ray = some h → 1e-3 < h.T) ∧
    (∀ (p : Plane) (ray : Ray) (h : Hit), Plane.Intersect p ray = some h → 1e-3 ≤ h.T) := by
  constructor
  · intro s ray h hI
    simp only [Sphere.Intersect] at hI
    split_ifs at hI
    all_goals try exact Option.noConfusion hI
    all_goals obtain rfl := Option.some.inj hI
    all_goals simp only [NewHit]
    all_goals linarith
  · intro p ray h hI
    simp only [Plane.Intersect] at hI
    split_ifs at hI
    all_goals try exact Option.noConfusion hI
    all_goals obtain rfl := Option.some.inj hI
    all_goals simp only [NewHit]
    all_goals linarith

/-- C3 witness: the amended plane bound at a concrete head-on intersection. -/
theorem intersect_epsilon_policy_witness :
    (1e-3 : ℝ) ≤ (⟨1, ⟨0, 1, 0⟩, ⟨0, 1, 0⟩, mWhite⟩ : Hit).T :=
  intersect_epsilon_policy.2 ⟨⟨0, 1, 0⟩, 1, mWhite⟩ ⟨⟨0, 0, 0⟩, ⟨0, 1, 0⟩⟩
    ⟨1, ⟨0, 1, 0⟩, ⟨0, 1, 0⟩, mWhite⟩ (by
      simp only [Plane.Intersect, Dot, MulScalar, NewHit, Ray.At, Add]
      norm_num)

/-- C4: for every ray and every sphere of positive radius, the source
Sphere.Intersect agrees with the spec's description sphereIntersectSpec:
same quadratic coefficients, rejection on negative discriminant, smaller root
preferred with fallback to the larger exactly when the smaller is negative,
rejection of the chosen t ≤ 1e-3, and outward normal
normalize(hitPoint - center) (the source divides by the radius before
normalizing, which for a positive radius is the same unit vector). -/
theorem sphere_intersect_matches_spec (sphere : Sphere) (ray : Ray)
    (hr : 0 < sphere.Radius) :
    Sphere.Intersect sphere ray = sphereIntersectSpec sphere ray := by
  simp only [Sphere.Intersect, sphereIntersectSpec]
  split_ifs <;>
    first
      | rfl
      | rw [normalize_divScalar sphere.Radius hr]

/-- C4 witness: the agreement at a concrete unit sphere and primary ray. -/
theorem sphere_intersect_matches_spec_witness :
    Sphere.Intersect ⟨⟨0, 0, 2⟩, 1, mWhite⟩ ⟨⟨0, 0, 0⟩, ⟨0, 0, 1⟩⟩
      = sphereIntersectSpec ⟨⟨0, 0, 2⟩, 1, mWhite⟩ ⟨⟨0, 0, 0⟩, ⟨0, 0, 1⟩⟩ :=
  sphere_intersect_matches_spec ⟨⟨0, 0, 2⟩, 1, mWhite⟩ ⟨⟨0, 0, 0⟩, ⟨0, 0, 1⟩⟩ (by norm_num)

/-- C10: every Hit produced by a shape's Intersect satisfies
Position = ray.At(T), the invariant NewHit establishes. -/
theorem hit_position_on_ray (sh : Shape) (ray : Ray) (h : Hit)
    (hI : Shape.Intersect sh ray = some h) : h.Position = ray.At h.T := by
  cases sh with
  | sphere s =>
    simp only [Shape.Intersect, Sphere.Intersect] at hI
    split_ifs at hI
    all_goals try exact Option.noConfusion hI
    all_goals obtain rfl := Option.some.inj hI
    all_goals simp only [NewHit]
  | plane p =>
    simp only [Shape.Intersect, Plane.Intersect] at hI
    split_ifs at hI
    all_goals try exact Option.noConfusion hI
    all_goals obtain rfl := Option.some.inj hI
    all_goals simp only [NewHit]

/-- C10 witness: the invariant at a concrete plane intersection. -/
theorem hit_position_on_ray_witness :
    (⟨2, ⟨0, 2, 0⟩, ⟨0, 1, 0⟩, mWhite⟩ : Hit).Position
      = Ray.At ⟨⟨0, 0, 0⟩, ⟨0, 1, 0⟩⟩ (⟨2, ⟨0, 2, 0⟩, ⟨0, 1, 0⟩, mWhite⟩ : Hit).T :=
  hit_position_on_ray (Shape.plane ⟨⟨0, 1, 0⟩, 2, mWhite⟩) ⟨⟨0, 0, 0⟩, ⟨0, 1, 0⟩⟩
    ⟨2, ⟨0, 2, 0⟩, ⟨0, 1, 0⟩, mWhite⟩ (by
      simp only [Shape.Intersect, Plane.Intersect, Dot, MulScalar, NewHit, Ray.At, Add]
      norm_num)

/-- C2 (counterexample): a shape whose Intersect accepts the ray can still be
dropped by the scene query: a plane at offset float32(math.MaxFloat32) hit
head-on returns a hit with t equal to the sentinel, the loop's strict
comparison t < closest fails against the initial sentinel, the query keeps no
hit, and castRay resolves the ray to the background as if nothing was hit. -/
theorem closestHitLoop_drops_sentinel_hit :
    (Shape.Intersect (Shape.plane ⟨⟨0, 1, 0⟩, maxFloat32, mWhite⟩)
        ⟨⟨0, 0, 0⟩, ⟨0, 1, 0⟩⟩).isSome = true ∧
    (closestHitLoop [Shape.plane ⟨⟨0, 1, 0⟩, maxFloat32, mWhite⟩]
        ⟨⟨0, 0, 0⟩, ⟨0, 1, 0⟩⟩).2 = none ∧
    castRay [Shape.plane ⟨⟨0, 1, 0⟩, maxFloat32, mWhite⟩] ⟨⟨0, 0, 0⟩, ⟨0, 1, 0⟩⟩ rng0 0
        = backgroundColor ⟨⟨0, 0, 0⟩, ⟨0, 1, 0⟩⟩ := by
  have hI : Shape.Intersect (Shape.plane ⟨⟨0, 1, 0⟩, maxFloat32, mWhite⟩)
      ⟨⟨0, 0, 0⟩, ⟨0, 1, 0⟩⟩
      = some (NewHit maxFloat32 ⟨⟨0, 0, 0⟩, ⟨0, 1, 0⟩⟩ ⟨0, 1, 0⟩ mWhite) := by
    simp only [Shape.Intersect, Plane.Intersect, Dot, MulScalar, NewHit, Ray.At, Add,
      maxFloat32]
    norm_num
  have hn : (closestHitLoop [Shape.plane ⟨⟨0, 1, 0⟩, maxFloat32, mWhite⟩]
      ⟨⟨0, 0, 0⟩, ⟨0, 1, 0⟩⟩).2 = none := by
    simp only [closestHitLoop, List.foldl_cons, List.foldl_nil, hI, hitStep, NewHit]
    simp
  exact ⟨by rw [hI]; rfl, hn, castRay_of_no_hit _ _ _ _ (Nat.zero_le _) hn⟩

end GoRaytracer
